import Mathlib

/-!
Verification of the voice-dictation core of the feedback-frontend widget.

The definitions below are a shallow embedding of the JavaScript in
`src/App.js` (the current revision: the variant using `_seenFinalTexts`,
`finalTranscriptRef`, `shouldSendOnStopRef` and `handleSendMessage` with a
history window).  JavaScript strings are modelled by Lean `String`;
`String.prototype.trim`, `toLowerCase`, `slice` and `Array.prototype.join`
are modelled by the `js*` helpers, with `Char.isWhitespace` standing for
the JS whitespace class.
-/

namespace FeedbackFrontend

/-- Model of JS `String.prototype.trim`: drop whitespace from both ends. -/
def jsTrim (s : String) : String :=
  ⟨((s.data.dropWhile Char.isWhitespace).reverse.dropWhile Char.isWhitespace).reverse⟩

/-- Model of JS `String.prototype.toLowerCase` (per-character lowering). -/
def jsLower (s : String) : String :=
  ⟨s.data.map Char.toLower⟩

/-- Model of JS `String.prototype.length` (character count). -/
def jsLen (s : String) : Nat :=
  s.data.length

/-- Model of JS `String.prototype.slice(0, n)`. -/
def jsTake (n : Nat) (s : String) : String :=
  ⟨s.data.take n⟩

/-- Model of JS `Array.prototype.join(' ')`. -/
def joinSp : List String → String
  | [] => ""
  | [p] => p
  | p :: ps => p ++ " " ++ joinSp ps

/- Basic lemmas about the string helpers. -/

theorem dropWhile_head_not {α : Type} (p : α → Bool) (l : List α) :
    ∀ a ∈ (l.dropWhile p).head?, p a = false := by
  induction l with
  | nil => intro a h; simp at h
  | cons x t ih =>
    intro a h
    by_cases hx : p x
    · rw [List.dropWhile_cons, if_pos hx] at h
      exact ih a h
    · rw [List.dropWhile_cons, if_neg hx] at h
      simp at h
      subst h
      simpa using hx

theorem dropWhile_eq_self_of_head {α : Type} (p : α → Bool) (l : List α)
    (h : ∀ a ∈ l.head?, p a = false) : l.dropWhile p = l := by
  cases l with
  | nil => rfl
  | cons x t =>
    have hx : p x = false := h x (by simp)
    rw [List.dropWhile_cons, if_neg (by simp [hx])]

theorem dropWhile_idem {α : Type} (p : α → Bool) (l : List α) :
    (l.dropWhile p).dropWhile p = l.dropWhile p :=
  dropWhile_eq_self_of_head p _ (dropWhile_head_not p l)

theorem getLast?_dropWhile {α : Type} (p : α → Bool) (l : List α)
    (h : l.dropWhile p ≠ []) : (l.dropWhile p).getLast? = l.getLast? := by
  induction l with
  | nil => simp at h
  | cons x t ih =>
    by_cases hx : p x
    · rw [List.dropWhile_cons, if_pos hx] at h ⊢
      have ht : t ≠ [] := by
        intro he; subst he; simp at h
      rw [ih h]
      cases t with
      | nil => exact absurd rfl ht
      | cons y u => simp [List.getLast?_cons_cons]
    · rw [List.dropWhile_cons, if_neg hx]

theorem trimCore_idem {α : Type} (p : α → Bool) (l : List α) :
    ((((((l.dropWhile p).reverse.dropWhile p).reverse).dropWhile p).reverse.dropWhile p).reverse)
      = ((l.dropWhile p).reverse.dropWhile p).reverse := by
  have h1 : (((l.dropWhile p).reverse.dropWhile p).reverse).dropWhile p
      = ((l.dropWhile p).reverse.dropWhile p).reverse := by
    apply dropWhile_eq_self_of_head
    intro a ha
    rw [List.head?_reverse] at ha
    by_cases hne : (l.dropWhile p).reverse.dropWhile p = []
    · rw [hne] at ha; simp at ha
    · rw [getLast?_dropWhile p (l.dropWhile p).reverse hne] at ha
      rw [List.getLast?_reverse] at ha
      exact dropWhile_head_not p l a ha
  rw [h1, List.reverse_reverse]
  exact congrArg List.reverse (dropWhile_idem p _)

theorem jsTrim_idem (s : String) : jsTrim (jsTrim s) = jsTrim s := by
  unfold jsTrim
  exact congrArg String.mk (trimCore_idem Char.isWhitespace s.data)

theorem jsLower_eq_empty {s : String} (h : jsLower s = "") : s = "" := by
  cases s with
  | mk d =>
    cases d with
    | nil => rfl
    | cons c t =>
      exfalso
      have hlen : jsLen (jsLower ⟨c :: t⟩) = jsLen "" := congrArg jsLen h
      have h1 : jsLen (jsLower ⟨c :: t⟩) = t.length + 1 := by
        simp [jsLen, jsLower]
      have h2 : jsLen "" = 0 := rfl
      rw [h1, h2] at hlen
      exact Nat.succ_ne_zero _ hlen

theorem jsLen_pos_iff (s : String) : 0 < jsLen s ↔ s ≠ "" := by
  cases s with
  | mk d =>
    cases d with
    | nil =>
      constructor
      · intro h
        exact absurd h (by simp [jsLen])
      · intro h
        exact absurd rfl h
    | cons c t =>
      constructor
      · intro _ he
        have hd := congrArg String.data he
        simp at hd
      · intro _
        simp [jsLen]

/-! ## Data model: recognition events and session state -/

/-- One entry of `event.results`: `transcript` is `result[0].transcript`,
`isFinal` is `result.isFinal`. -/
structure ResultSegment where
  transcript : String
  isFinal : Bool
deriving DecidableEq, Repr

/-- The mutable state owned by the dictation session in `App.js`:
`_seenFinalTexts` (dedup set, as an insertion-ordered list of lowercase
keys), `finalTranscriptRef`, `inputValueRef`/`inputValue` (the published
display text), `shouldSendOnStopRef`, `isListening`, `speechError`, and a
log `sent` of the texts handed to the Message Dispatch boundary
(`sendMessageRef.current(textToSend)`). -/
structure RecogState where
  seenFinalTexts : List String
  finalTranscript : String
  inputValue : String
  shouldSendOnStop : Bool
  isListening : Bool
  speechError : String
  sent : List String
deriving DecidableEq, Repr

/-- Initial state: all refs empty, flags false. -/
def initState : RecogState :=
  { seenFinalTexts := [], finalTranscript := "", inputValue := "",
    shouldSendOnStop := false, isListening := false, speechError := "",
    sent := [] }

/-- Accumulator of the loop over `event.results` in `onresult`. -/
structure EventAcc where
  seen : List String
  finalTextParts : List String
  interimText : String
deriving DecidableEq, Repr

/-- One iteration of the `for` loop in `onresult`:
trim the chunk, skip it when empty; a final chunk is accepted only when its
lowercase key is not in `_seenFinalTexts`; an interim chunk is appended to
`interimText` (space-separated). -/
def stepSegment (acc : EventAcc) (result : ResultSegment) : EventAcc :=
  let chunk := jsTrim result.transcript
  if chunk = "" then acc
  else if result.isFinal then
    let chunkKey := jsLower chunk
    if acc.seen.contains chunkKey then acc
    else { acc with seen := acc.seen ++ [chunkKey],
                    finalTextParts := acc.finalTextParts ++ [chunk] }
  else
    { acc with interimText :=
        (if acc.interimText = "" then "" else acc.interimText ++ " ") ++ chunk }

/-- The `onresult` handler: walk all results, then
`if (finalTextParts.length > 0) finalTranscriptRef.current = finalTextParts.join(' ').trim()`,
then `combined = (finalTranscript + ' ' + interimText).trim()`, published
only when non-empty; `setSpeechError('')`. -/
def onresult (s : RecogState) (results : List ResultSegment) : RecogState :=
  let acc := results.foldl stepSegment ⟨s.seenFinalTexts, [], ""⟩
  let finalTranscript :=
    if acc.finalTextParts.length > 0 then jsTrim (joinSp acc.finalTextParts)
    else s.finalTranscript
  let combined := jsTrim (finalTranscript ++ " " ++ acc.interimText)
  { s with
    seenFinalTexts := acc.seen
    finalTranscript := finalTranscript
    inputValue := if 0 < jsLen combined then combined else s.inputValue
    speechError := "" }

/-- The `textToSend` expression in `onend`:
`(finalTranscriptRef.current && finalTranscriptRef.current.trim()) || (inputValueRef.current && inputValueRef.current.trim()) || ''`. -/
def dictationTextToSend (s : RecogState) : String :=
  if jsTrim s.finalTranscript ≠ "" then jsTrim s.finalTranscript
  else if jsTrim s.inputValue ≠ "" then jsTrim s.inputValue
  else ""

/-- The `onend` handler: stop listening; when `shouldSendOnStopRef` is set,
clear the flag, compute `textToSend`, clear the transcript refs and the
input, and dispatch when non-empty; otherwise keep the text for editing
unless it is blank, in which case clear it. -/
def onend (s : RecogState) : RecogState :=
  let s1 := { s with isListening := false }
  if s1.shouldSendOnStop then
    let textToSend := dictationTextToSend s1
    let s2 := { s1 with shouldSendOnStop := false, finalTranscript := "",
                        inputValue := "" }
    if textToSend ≠ "" then { s2 with sent := s2.sent ++ [textToSend] } else s2
  else
    if jsTrim s1.inputValue = "" then
      { s1 with finalTranscript := "", inputValue := "" }
    else s1

/-- The error-message mapping in `onerror` (synchronous part: the
permission branch first shows the requesting message). -/
def mapSpeechError (code : String) : String :=
  if code = "network" then
    "Network error. Please check your internet connection and try again."
  else if code = "not-allowed" ∨ code = "service-not-allowed" then
    "Microphone permission denied. Requesting permission again..."
  else if code = "no-speech" then
    "No speech detected. Please try again and speak clearly."
  else
    "Voice recognition error: " ++ code ++ ". Please try again or type your message."

/-- The `onerror` handler: stop listening, reset the manual-start flag,
clear `shouldSendOnStopRef` (never auto-send after an error), and present
the mapped message (`event?.error || 'unknown'`). -/
def onerror (s : RecogState) (code : String) : RecogState :=
  let err := if code = "" then "unknown" else code
  { s with isListening := false, shouldSendOnStop := false,
           speechError := mapSpeechError err }

/-- The start branch of `handleVoiceInput` (including the reset performed
by the `onstart` handler on a manual start): clear the error, transcripts,
intent flag and `_seenFinalTexts`, and begin listening. -/
def startListening (s : RecogState) : RecogState :=
  { s with speechError := "", finalTranscript := "", inputValue := "",
           shouldSendOnStop := false, seenFinalTexts := [],
           isListening := true }

/-- The stop branch of `handleVoiceInput`: set the auto-send intent and
request the stream to stop (the stream later fires `onend`). -/
def stopAndSend (s : RecogState) : RecogState :=
  { s with shouldSendOnStop := true }

/-- `handleCancelListening`: clear the intent flag, both transcripts and
`_seenFinalTexts`, and request the stream to stop (the stream later fires
`onend`). -/
def handleCancelListening (s : RecogState) : RecogState :=
  { s with shouldSendOnStop := false, finalTranscript := "",
           inputValue := "", seenFinalTexts := [] }

/-- The observable inputs of one dictation session: user commands and
stream callbacks, processed strictly in delivery order. -/
inductive SessionAction where
  | start
  | result (results : List ResultSegment)
  | streamError (code : String)
  | streamEnd
  | stopSend
  | cancel
deriving DecidableEq, Repr

/-- Dispatch one action to its handler. -/
def step (s : RecogState) : SessionAction → RecogState
  | .start => startListening s
  | .result rs => onresult s rs
  | .streamError c => onerror s c
  | .streamEnd => onend s
  | .stopSend => stopAndSend s
  | .cancel => handleCancelListening s

/-- Process a sequence of actions in delivery order. -/
def run (s : RecogState) (as : List SessionAction) : RecogState :=
  as.foldl step s

/-! ## Helper lemmas about the session handlers -/

theorem onend_no_intent (s : RecogState) (h : s.shouldSendOnStop = false) :
    (onend s).sent = s.sent ∧ (onend s).shouldSendOnStop = false := by
  unfold onend
  simp only [h, Bool.false_eq_true, if_false]
  split <;> exact ⟨rfl, rfl⟩

theorem onend_with_intent (s : RecogState)
    (hIntent : s.shouldSendOnStop = true)
    (hText : dictationTextToSend s ≠ "") :
    onend s = { s with isListening := false, shouldSendOnStop := false,
                       finalTranscript := "", inputValue := "",
                       sent := s.sent ++ [dictationTextToSend s] } := by
  have hsame : dictationTextToSend
      { s with isListening := false, shouldSendOnStop := true }
      = dictationTextToSend s := rfl
  unfold onend
  simp only [hIntent, if_true]
  rw [hsame, if_pos hText]

theorem step_no_intent (s : RecogState) (a : SessionAction)
    (hFlag : s.shouldSendOnStop = false) (ha : a ≠ SessionAction.stopSend) :
    (step s a).sent = s.sent ∧ (step s a).shouldSendOnStop = false := by
  cases a with
  | start => exact ⟨rfl, rfl⟩
  | result rs => exact ⟨rfl, hFlag⟩
  | streamError c => exact ⟨rfl, rfl⟩
  | streamEnd => exact onend_no_intent s hFlag
  | stopSend => exact absurd rfl ha
  | cancel => exact ⟨rfl, rfl⟩

theorem run_no_intent (as : List SessionAction) (s : RecogState)
    (hFlag : s.shouldSendOnStop = false)
    (hNo : SessionAction.stopSend ∉ as) :
    (run s as).sent = s.sent ∧ (run s as).shouldSendOnStop = false := by
  induction as generalizing s with
  | nil => exact ⟨rfl, hFlag⟩
  | cons a as ih =>
    have haNo : a ≠ SessionAction.stopSend := by
      intro he; exact hNo (by rw [he]; exact List.mem_cons_self _ _)
    have hrest : SessionAction.stopSend ∉ as := by
      intro hm; exact hNo (List.mem_cons_of_mem _ hm)
    have hstep := step_no_intent s a hFlag haNo
    have hrun := ih (step s a) hstep.2 hrest
    exact ⟨hrun.1.trans hstep.1, hrun.2⟩

/-- The interim buffer accumulated by the `onresult` loop over one event,
starting from `cur` (the reconciler starts each event with an empty
buffer). -/
def interimOf (cur : String) : List ResultSegment → String
  | [] => cur
  | r :: rs =>
    let chunk := jsTrim r.transcript
    if chunk = "" then interimOf cur rs
    else if r.isFinal then interimOf cur rs
    else interimOf ((if cur = "" then "" else cur ++ " ") ++ chunk) rs

theorem stepSegment_interimText (acc : EventAcc) (r : ResultSegment) :
    (stepSegment acc r).interimText =
      if jsTrim r.transcript = "" then acc.interimText
      else if r.isFinal then acc.interimText
      else (if acc.interimText = "" then "" else acc.interimText ++ " ")
              ++ jsTrim r.transcript := by
  by_cases h1 : jsTrim r.transcript = ""
  · simp [stepSegment, h1]
  · by_cases h2 : r.isFinal
    · by_cases h3 : jsLower (jsTrim r.transcript) ∈ acc.seen
      · simp [stepSegment, h1, h2, h3]
      · simp [stepSegment, h1, h2, h3]
    · simp [stepSegment, h1, h2]

theorem interim_spec (rs : List ResultSegment) :
    ∀ acc : EventAcc,
      (rs.foldl stepSegment acc).interimText = interimOf acc.interimText rs := by
  induction rs with
  | nil => intro acc; rfl
  | cons r rs ih =>
    intro acc
    rw [List.foldl_cons, ih, stepSegment_interimText, interimOf]
    by_cases h1 : jsTrim r.transcript = ""
    · simp [h1]
    · by_cases h2 : r.isFinal
      · simp [h1, h2]
      · simp [h1, h2]

/-- The (dedup set, accepted finals) part of one loop iteration, which
does not depend on the interim buffer. -/
def stepFinals (sp : List String × List String) (r : ResultSegment) :
    List String × List String :=
  let chunk := jsTrim r.transcript
  if chunk = "" then sp
  else if r.isFinal then
    let chunkKey := jsLower chunk
    if sp.1.contains chunkKey then sp
    else (sp.1 ++ [chunkKey], sp.2 ++ [chunk])
  else sp

theorem stepSegment_finals (acc : EventAcc) (r : ResultSegment) :
    ((stepSegment acc r).seen, (stepSegment acc r).finalTextParts)
      = stepFinals (acc.seen, acc.finalTextParts) r := by
  by_cases h1 : jsTrim r.transcript = ""
  · simp [stepSegment, stepFinals, h1]
  · by_cases h2 : r.isFinal
    · by_cases h3 : jsLower (jsTrim r.transcript) ∈ acc.seen
      · simp [stepSegment, stepFinals, h1, h2, h3]
      · simp [stepSegment, stepFinals, h1, h2, h3]
    · simp [stepSegment, stepFinals, h1, h2]

theorem foldl_finals (rs : List ResultSegment) :
    ∀ acc : EventAcc,
      ((rs.foldl stepSegment acc).seen, (rs.foldl stepSegment acc).finalTextParts)
        = rs.foldl stepFinals (acc.seen, acc.finalTextParts) := by
  induction rs with
  | nil => intro acc; rfl
  | cons r rs ih =>
    intro acc
    rw [List.foldl_cons, List.foldl_cons, ih, stepSegment_finals]

theorem stepFinals_not_final (sp : List String × List String)
    (r : ResultSegment) (h : r.isFinal = false) : stepFinals sp r = sp := by
  simp [stepFinals, h]

theorem foldl_stepFinals_filter (rs : List ResultSegment) :
    ∀ sp : List String × List String,
      (rs.filter (fun r => r.isFinal)).foldl stepFinals sp
        = rs.foldl stepFinals sp := by
  induction rs with
  | nil => intro sp; rfl
  | cons r rs ih =>
    intro sp
    by_cases h : r.isFinal = true
    · rw [List.filter_cons_of_pos (by simpa using h), List.foldl_cons,
        List.foldl_cons, ih]
    · rw [List.filter_cons_of_neg (by simpa using h), List.foldl_cons,
        stepFinals_not_final sp r (by simpa using h), ih]

/-- The published display text after one event is the code's `combined`
value when it is non-empty, and the previous display otherwise. -/
theorem onresult_inputValue (s : RecogState) (e : List ResultSegment) :
    (onresult s e).inputValue =
      if 0 < jsLen (jsTrim ((onresult s e).finalTranscript ++ " "
          ++ interimOf "" e))
      then jsTrim ((onresult s e).finalTranscript ++ " " ++ interimOf "" e)
      else s.inputValue := by
  have hint : (e.foldl stepSegment ⟨s.seenFinalTexts, [], ""⟩).interimText
      = interimOf "" e := interim_spec e ⟨s.seenFinalTexts, [], ""⟩
  simp only [onresult]
  rw [hint]

/-- A non-empty trimmed final segment whose key is new: it is accepted and
becomes the rebuilt `finalText`. -/
theorem onresult_new_final (s : RecogState) (t : String)
    (ht : jsTrim t ≠ "")
    (hmem : s.seenFinalTexts.contains (jsLower (jsTrim t)) = false) :
    (onresult s [⟨t, true⟩]).finalTranscript = jsTrim t ∧
    (onresult s [⟨t, true⟩]).seenFinalTexts
      = s.seenFinalTexts ++ [jsLower (jsTrim t)] := by
  have hmem' : jsLower (jsTrim t) ∉ s.seenFinalTexts := by
    simpa using hmem
  simp [onresult, stepSegment, ht, hmem', joinSp, jsTrim_idem]

/-- A non-empty trimmed final segment whose key was already seen: it is
discarded, leaving `finalText` and the dedup set unchanged. -/
theorem onresult_dup_final (s : RecogState) (t : String)
    (ht : jsTrim t ≠ "")
    (hmem : s.seenFinalTexts.contains (jsLower (jsTrim t)) = true) :
    (onresult s [⟨t, true⟩]).finalTranscript = s.finalTranscript ∧
    (onresult s [⟨t, true⟩]).seenFinalTexts = s.seenFinalTexts := by
  have hmem' : jsLower (jsTrim t) ∈ s.seenFinalTexts := by
    simpa using hmem
  simp [onresult, stepSegment, ht, hmem']

/-! ## Claims about the Transcript Reconciler and Dictation Session -/

/-- Claim C1 (code_bug evidence): processing a session in which the final
segment "hello" is accepted in one event and a later event redelivers
"hello" together with a new final segment "world" leaves `finalText` equal
to "world": the earlier accepted segment "hello" has been dropped, so the
accepted finals do not all appear in `finalText` in first-acceptance
order. -/
theorem final_text_drops_earlier_segment :
    (run (startListening initState)
      [SessionAction.result [⟨"hello", true⟩],
       SessionAction.result [⟨"hello", true⟩, ⟨"world", true⟩]]).finalTranscript
      = "world" ∧ ("world" : String) ≠ "hello world" := by
  constructor
  · decide
  · decide

/-- Claim C2: when the auto-send intent flag is set and the finalized text
is non-empty, the Message Dispatch boundary receives that text exactly
once, no matter how many times (one or more) the stream fires `onEnd`:
the flag is cleared on the first `onEnd`, so later ones dispatch
nothing. -/
theorem exactly_once_dispatch (s : RecogState) (n : Nat)
    (hIntent : s.shouldSendOnStop = true)
    (hText : dictationTextToSend s ≠ "") :
    (run s (List.replicate (n + 1) SessionAction.streamEnd)).sent
      = s.sent ++ [dictationTextToSend s] := by
  rw [List.replicate_succ]
  show (run (step s SessionAction.streamEnd) (List.replicate n SessionAction.streamEnd)).sent = _
  have hend := onend_with_intent s hIntent hText
  have hflag : (step s SessionAction.streamEnd).shouldSendOnStop = false := by
    show (onend s).shouldSendOnStop = false
    rw [hend]
  have hno : SessionAction.stopSend ∉ List.replicate n SessionAction.streamEnd := by
    intro hm
    have := (List.mem_replicate.mp hm).2
    exact absurd this (by intro h; cases h)
  rw [(run_no_intent _ _ hflag hno).1]
  show (onend s).sent = _
  rw [hend]

/-- Claim C3: for every stream error, `onerror` clears the pending
auto-send intent and presents the mapped error message, it dispatches
nothing itself, and a subsequent `onEnd` hands nothing to the Message
Dispatch boundary. -/
theorem error_never_triggers_autosend (s : RecogState) (code : String) :
    (onerror s code).shouldSendOnStop = false ∧
    (onerror s code).speechError
      = mapSpeechError (if code = "" then "unknown" else code) ∧
    (onerror s code).sent = s.sent ∧
    (onend (onerror s code)).sent = s.sent := by
  refine ⟨rfl, rfl, rfl, ?_⟩
  exact (onend_no_intent (onerror s code) rfl).1

/-- Claim C7: in a session whose auto-send intent is not set, any sequence
of actions that never includes a `stopAndSend` request — recognition
events, errors, cancels and (natural) stream ends — leaves the dispatch
log unchanged: natural stream end never invokes Message Dispatch. -/
theorem no_send_without_intent (s : RecogState) (as : List SessionAction)
    (hFlag : s.shouldSendOnStop = false)
    (hNo : SessionAction.stopSend ∉ as) :
    (run s as).sent = s.sent := by
  exact (run_no_intent as s hFlag hNo).1

/-- Claim C5: delivering a final segment and then, in a second event of
the same session, a final segment with the same trimmed text up to case,
leaves `finalText` holding that text exactly once, with the casing of the
first acceptance, and the dedup set holding its single fingerprint. -/
theorem dedup_idempotent (a b : String)
    (ha : jsTrim a ≠ "")
    (hab : jsLower (jsTrim b) = jsLower (jsTrim a)) :
    (run (startListening initState)
      [SessionAction.result [⟨a, true⟩],
       SessionAction.result [⟨b, true⟩]]).finalTranscript = jsTrim a ∧
    (run (startListening initState)
      [SessionAction.result [⟨a, true⟩],
       SessionAction.result [⟨b, true⟩]]).seenFinalTexts
      = [jsLower (jsTrim a)] := by
  have hb : jsTrim b ≠ "" := by
    intro hb0
    rw [hb0] at hab
    exact ha (jsLower_eq_empty hab.symm)
  have h1 := onresult_new_final (startListening initState) a ha rfl
  show (onresult (onresult (startListening initState) [⟨a, true⟩]) [⟨b, true⟩]).finalTranscript
        = jsTrim a ∧
      (onresult (onresult (startListening initState) [⟨a, true⟩]) [⟨b, true⟩]).seenFinalTexts
        = [jsLower (jsTrim a)]
  have hmem2 : (onresult (startListening initState)
      [⟨a, true⟩]).seenFinalTexts.contains (jsLower (jsTrim b)) = true := by
    rw [h1.2, hab]
    simp
  have h2 := onresult_dup_final (onresult (startListening initState) [⟨a, true⟩])
      b hb hmem2
  refine ⟨h2.1.trans ?_, h2.2.trans ?_⟩
  · exact h1.1
  · exact h1.2

/-- Claim C6: the text of a non-final (interim) segment never becomes part
of `finalText` — dropping all interim segments from an event changes
neither `finalText` nor the dedup set — and the display text after an
event is either the previous display (superseded by nothing) or is built
from the updated `finalText` and the interim buffer of this event only. -/
theorem interim_transience (s : RecogState) (e : List ResultSegment) :
    (onresult s e).finalTranscript
      = (onresult s (e.filter (fun r => r.isFinal))).finalTranscript ∧
    (onresult s e).seenFinalTexts
      = (onresult s (e.filter (fun r => r.isFinal))).seenFinalTexts ∧
    ((onresult s e).inputValue = s.inputValue ∨
      (onresult s e).inputValue
        = jsTrim ((onresult s e).finalTranscript ++ " " ++ interimOf "" e)) := by
  have hE := foldl_finals e ⟨s.seenFinalTexts, [], ""⟩
  have hF := foldl_finals (e.filter (fun r => r.isFinal))
      ⟨s.seenFinalTexts, [], ""⟩
  have hfil := foldl_stepFinals_filter e (s.seenFinalTexts, [])
  have hpair : ((e.foldl stepSegment ⟨s.seenFinalTexts, [], ""⟩).seen,
        (e.foldl stepSegment ⟨s.seenFinalTexts, [], ""⟩).finalTextParts)
      = (((e.filter (fun r => r.isFinal)).foldl stepSegment
            ⟨s.seenFinalTexts, [], ""⟩).seen,
         ((e.filter (fun r => r.isFinal)).foldl stepSegment
            ⟨s.seenFinalTexts, [], ""⟩).finalTextParts) := by
    rw [hE, hF]
    exact hfil.symm
  have hseen := congrArg Prod.fst hpair
  have hparts := congrArg Prod.snd hpair
  dsimp only at hseen hparts
  refine ⟨?_, ?_, ?_⟩
  · simp only [onresult]
    rw [hparts]
  · simp only [onresult]
    exact hseen
  · rw [onresult_inputValue s e]
    by_cases h : 0 < jsLen (jsTrim ((onresult s e).finalTranscript ++ " "
        ++ interimOf "" e))
    · right
      rw [if_pos h]
    · left
      rw [if_neg h]

/-- Claim C10: an event whose combined final-plus-interim text is empty
after trimming leaves the published display text unchanged, and
processing an event never replaces a non-empty display text with the
empty string. -/
theorem empty_event_keeps_display (s : RecogState) (e : List ResultSegment) :
    (jsTrim ((onresult s e).finalTranscript ++ " " ++ interimOf "" e) = "" →
      (onresult s e).inputValue = s.inputValue) ∧
    (s.inputValue ≠ "" → (onresult s e).inputValue ≠ "") := by
  have hchar := onresult_inputValue s e
  constructor
  · intro h0
    rw [hchar, h0]
    have hz : ¬ 0 < jsLen "" := by decide
    rw [if_neg hz]
  · intro hne
    rw [hchar]
    by_cases h : 0 < jsLen (jsTrim ((onresult s e).finalTranscript ++ " "
        ++ interimOf "" e))
    · rw [if_pos h]
      exact (jsLen_pos_iff _).mp h
    · rw [if_neg h]
      exact hne

/-- A state reachable by a session that dictated "too cold" and ended
naturally without a send request: the session is Idle and the text is
retained for editing. -/
def idleRetained : RecogState :=
  run initState
    [SessionAction.start,
     SessionAction.result [⟨"too cold", true⟩],
     SessionAction.streamEnd]

/-- Claim C8 (counterexample): from the reachable Idle state that retains
the text "too cold" for editing, `handleCancelListening` is not a no-op —
it clears the displayed text, an observable state change. -/
theorem cancel_from_idle_not_noop :
    idleRetained.isListening = false ∧
    idleRetained.inputValue = "too cold" ∧
    (handleCancelListening idleRetained).inputValue = "" ∧
    handleCancelListening idleRetained ≠ idleRetained := by
  refine ⟨by decide, by decide, by decide, by decide⟩

/-- Claim C8 (amended): after `cancel()` the transcripts, display text,
dedup set and intent flag are cleared and, once the stream confirms end,
the session is Idle with nothing dispatched and its state still clear;
`cancel()` is idempotent; and from Idle it is a no-op provided the
transcript state is already clear — but from Idle with retained text it
clears that text (see the counterexample). -/
theorem cancel_clears_state (s : RecogState) :
    (handleCancelListening s).finalTranscript = "" ∧
    (handleCancelListening s).inputValue = "" ∧
    (handleCancelListening s).seenFinalTexts = [] ∧
    (handleCancelListening s).shouldSendOnStop = false ∧
    (onend (handleCancelListening s)).isListening = false ∧
    (onend (handleCancelListening s)).sent = s.sent ∧
    (onend (handleCancelListening s)).finalTranscript = "" ∧
    (onend (handleCancelListening s)).inputValue = "" ∧
    (onend (handleCancelListening s)).seenFinalTexts = [] ∧
    handleCancelListening (handleCancelListening s) = handleCancelListening s ∧
    (s.isListening = false → s.finalTranscript = "" → s.inputValue = "" →
      s.seenFinalTexts = [] → s.shouldSendOnStop = false →
      handleCancelListening s = s) := by
  refine ⟨rfl, rfl, rfl, rfl, ?_, ?_, ?_, ?_, ?_, rfl, ?_⟩
  · show (onend (handleCancelListening s)).isListening = false
    unfold onend
    simp only [handleCancelListening]
    split <;> rfl
  · unfold onend
    simp only [handleCancelListening]
    split <;> rfl
  · unfold onend
    simp only [handleCancelListening]
    split <;> rfl
  · unfold onend
    simp only [handleCancelListening]
    split <;> rfl
  · unfold onend
    simp only [handleCancelListening]
    split <;> rfl
  · intro h1 h2 h3 h4 h5
    cases s with
    | mk seen ft iv flag listening err sent =>
      dsimp only at h1 h2 h3 h4 h5
      subst h1; subst h2; subst h3; subst h4; subst h5
      rfl

/-! ## The Message Dispatch boundary (`handleSendMessage`) -/

/-- One chat bubble: `type` is `user`, `assistant` or `error`. -/
structure ChatMessage where
  type : String
  text : String
deriving DecidableEq, Repr

/-- One entry of the `history` field of the request body. -/
structure HistoryEntry where
  role : String
  text : String
deriving DecidableEq, Repr

/-- The JSON body posted to `/api/feedback`. -/
structure RequestPayload where
  message : String
  zoneId : String
  acId : String
  sessionId : String
  history : List HistoryEntry
deriving DecidableEq, Repr

/-- The component state read by `handleSendMessage` (via refs). -/
structure AppSendState where
  inputValue : String
  isLoading : Bool
  acId : String
  zoneIdFromUrl : String
  sessionId : String
  messages : List ChatMessage
deriving DecidableEq, Repr

/-- The observable outcome of one `handleSendMessage` call: an early
return (empty message or already loading), a rejection with a surfaced
error and no dispatch, or a dispatch of the request payload together with
the updated message list. -/
inductive SendOutcome where
  | noop
  | rejected (speechError : String)
  | dispatched (payload : RequestPayload) (nextMessages : List ChatMessage)
deriving DecidableEq, Repr

/-- `overrideText` handling:
`typeof overrideText === 'string' ? overrideText : inputValueRef.current`. -/
def rawInput (overrideText : Option String) (st : AppSendState) : String :=
  match overrideText with
  | some t => t
  | none => st.inputValue

/-- The rolling context sent to the backend:
`nextMessages.slice(-10).filter(m => m.text.trim().length > 0).map(m => ({role, text: m.text.slice(0, 500)}))`. -/
def historyWindow (nextMessages : List ChatMessage) : List HistoryEntry :=
  ((nextMessages.drop (nextMessages.length - 10)).filter
      (fun m => 0 < jsLen (jsTrim m.text))).map
    (fun m => ⟨if m.type = "assistant" then "assistant" else "user",
               jsTake 500 m.text⟩)

/-- `handleSendMessage`: trim the message, return early when it is empty
or a send is in flight; reject with an error when no AC/zone identifier is
selected; otherwise append the user message and dispatch the payload with
`zoneId: zoneIdFromUrl || acId`. -/
def handleSendMessage (overrideText : Option String)
    (st : AppSendState) : SendOutcome :=
  let message := jsTrim (rawInput overrideText st)
  if message = "" ∨ st.isLoading then .noop
  else if st.acId = "" then
    .rejected "Please select an AC ID before sending your message."
  else
    let nextMessages := st.messages ++ [⟨"user", message⟩]
    .dispatched
      { message := message
        zoneId := if st.zoneIdFromUrl ≠ "" then st.zoneIdFromUrl else st.acId
        acId := st.acId
        sessionId := st.sessionId
        history := historyWindow nextMessages }
      nextMessages

/-- Claim C4: when no zone/unit identifier is available (the selected-id
ref is empty), `handleSendMessage` never dispatches — so no substitute
identifier is sent in its place — and, for an actual send attempt (a
non-empty message with no send in flight), it surfaces the selection
error instead. -/
theorem missing_zone_id_rejected (st : AppSendState) (ot : Option String)
    (hNo : st.acId = "") :
    (∀ p msgs, handleSendMessage ot st ≠ SendOutcome.dispatched p msgs) ∧
    (jsTrim (rawInput ot st) ≠ "" → st.isLoading = false →
      handleSendMessage ot st
        = SendOutcome.rejected
            "Please select an AC ID before sending your message.") := by
  constructor
  · intro p msgs
    unfold handleSendMessage
    by_cases h1 : jsTrim (rawInput ot st) = "" ∨ st.isLoading
    · simp [h1]
    · simp [h1, hNo]
  · intro hmsg hload
    unfold handleSendMessage
    have h1 : ¬(jsTrim (rawInput ot st) = "" ∨ st.isLoading = true) := by
      intro h
      rcases h with h | h
      · exact hmsg h
      · rw [hload] at h; cases h
    simp [h1, hNo]

/-- The state of a freshly opened session with no prior conversation. -/
def freshSendState : AppSendState :=
  { inputValue := "", isLoading := false, acId := "AC-001",
    zoneIdFromUrl := "AC-001", sessionId := "sess-1", messages := [] }

/-- Claim C9 (counterexample): sending "hello" from a session with no
prior turns dispatches a history containing one entry — the current
message itself — although the set of prior turns is empty, so the history
is not limited to prior turns. -/
theorem history_contains_current_turn :
    freshSendState.messages = [] ∧
    handleSendMessage (some "hello") freshSendState
      = SendOutcome.dispatched
          { message := "hello", zoneId := "AC-001", acId := "AC-001",
            sessionId := "sess-1",
            history := [⟨"user", "hello"⟩] }
          [⟨"user", "hello"⟩] := by
  refine ⟨rfl, by decide⟩

/-- Claim C9 (amended): every dispatched history is a bounded rolling
window over the conversation including the just-appended current message:
the dispatched message list is the prior conversation plus the current
user turn; the history's entries are exactly the role-normalized,
500-character-truncated images of the messages with non-empty trimmed
text among the `min 10 n` most recent turns of that conversation (the
unique suffix of that length); so it has at most 10 entries, every
entry's text at most 500 characters, and every entry's role exactly
`user` or `assistant`. -/
theorem history_window_bounds (st : AppSendState) (ot : Option String)
    (p : RequestPayload) (msgs : List ChatMessage)
    (h : handleSendMessage ot st = SendOutcome.dispatched p msgs) :
    msgs = st.messages ++ [⟨"user", jsTrim (rawInput ot st)⟩] ∧
    (∃ dropped recent : List ChatMessage,
      msgs = dropped ++ recent ∧
      recent.length = min 10 msgs.length ∧
      p.history = (recent.filter (fun m => jsTrim m.text ≠ "")).map
        (fun m => ⟨if m.type = "assistant" then "assistant" else "user",
                   jsTake 500 m.text⟩)) ∧
    p.history.length ≤ 10 ∧
    ∀ en ∈ p.history,
      (en.role = "user" ∨ en.role = "assistant") ∧ jsLen en.text ≤ 500 := by
  have hboth : p.history = historyWindow msgs ∧
      msgs = st.messages ++ [⟨"user", jsTrim (rawInput ot st)⟩] := by
    unfold handleSendMessage at h
    by_cases h1 : jsTrim (rawInput ot st) = "" ∨ st.isLoading
    · simp [h1] at h
    · by_cases h2 : st.acId = ""
      · simp [h1, h2] at h
      · simp [h1, h2] at h
        constructor
        · rw [← h.2, ← h.1]
        · rw [← h.2]
  obtain ⟨hp, hmsgs⟩ := hboth
  have hfilter : (msgs.drop (msgs.length - 10)).filter
        (fun m => 0 < jsLen (jsTrim m.text))
      = (msgs.drop (msgs.length - 10)).filter
        (fun m => jsTrim m.text ≠ "") := by
    apply List.filter_congr
    intro m _
    exact decide_eq_decide.mpr (jsLen_pos_iff (jsTrim m.text))
  refine ⟨hmsgs, ?_, ?_, ?_⟩
  · refine ⟨msgs.take (msgs.length - 10), msgs.drop (msgs.length - 10),
      (List.take_append_drop _ msgs).symm, ?_, ?_⟩
    · rw [List.length_drop]
      omega
    · rw [hp]
      unfold historyWindow
      rw [hfilter]
  · rw [hp]
    unfold historyWindow
    rw [List.length_map]
    calc ((msgs.drop (msgs.length - 10)).filter
            (fun m => 0 < jsLen (jsTrim m.text))).length
        ≤ (msgs.drop (msgs.length - 10)).length := List.length_filter_le _ _
      _ = msgs.length - (msgs.length - 10) := List.length_drop _ _
      _ ≤ 10 := by omega
  · rw [hp]
    intro en hen
    unfold historyWindow at hen
    rw [List.mem_map] at hen
    obtain ⟨m, _, hm⟩ := hen
    constructor
    · rw [← hm]
      by_cases ht : m.type = "assistant"
      · right; simp [ht]
      · left; simp [ht]
    · rw [← hm]
      show jsLen (jsTake 500 m.text) ≤ 500
      unfold jsLen jsTake
      simp

/-! ## Concrete witnesses -/

/-- A session that finished dictating "hello world" and whose user pressed
the stop-and-send button, just before the stream confirms its end. -/
def stoppedSession : RecogState :=
  { seenFinalTexts := ["hello world"], finalTranscript := "hello world",
    inputValue := "hello world", shouldSendOnStop := true,
    isListening := true, speechError := "", sent := [] }

/-- Witness for claim C2 at a concrete state with two `onEnd` firings. -/
theorem exactly_once_dispatch_witness :
    (run stoppedSession (List.replicate 2 SessionAction.streamEnd)).sent
      = stoppedSession.sent ++ [dictationTextToSend stoppedSession] :=
  exactly_once_dispatch stoppedSession 1 rfl (by decide)

/-- A send attempt typed as "hi" while no AC/zone identifier is selected. -/
def missingZoneState : AppSendState :=
  { inputValue := "hi", isLoading := false, acId := "",
    zoneIdFromUrl := "", sessionId := "sess-2", messages := [] }

/-- Witness for claim C4 at a concrete state with an empty identifier. -/
theorem missing_zone_id_rejected_witness :
    (∀ p msgs,
      handleSendMessage none missingZoneState ≠ SendOutcome.dispatched p msgs) ∧
    handleSendMessage none missingZoneState
      = SendOutcome.rejected
          "Please select an AC ID before sending your message." := by
  have h := missing_zone_id_rejected missingZoneState none rfl
  exact ⟨h.1, h.2 (by decide) rfl⟩

/-- Witness for claim C5: "Hello" then " hello " (same text up to case and
whitespace) is kept once, as "Hello". -/
theorem dedup_idempotent_witness :
    (run (startListening initState)
      [SessionAction.result [⟨"Hello", true⟩],
       SessionAction.result [⟨" hello ", true⟩]]).finalTranscript
      = jsTrim "Hello" ∧
    (run (startListening initState)
      [SessionAction.result [⟨"Hello", true⟩],
       SessionAction.result [⟨" hello ", true⟩]]).seenFinalTexts
      = [jsLower (jsTrim "Hello")] :=
  dedup_idempotent "Hello" " hello " (by decide) (by decide)

/-- Witness for claim C7: a session that dictates and ends naturally,
without a stop-and-send request, dispatches nothing. -/
theorem no_send_without_intent_witness :
    (run initState
      [SessionAction.start,
       SessionAction.result [⟨"hi there", true⟩],
       SessionAction.streamEnd]).sent = initState.sent :=
  no_send_without_intent initState
    [SessionAction.start,
     SessionAction.result [⟨"hi there", true⟩],
     SessionAction.streamEnd] rfl (by decide)

/-- Witness for claim C8 (amended) at the initial state: from Idle with
clear transcript state, `cancel()` is a no-op. -/
theorem cancel_clears_state_witness :
    handleCancelListening initState = initState :=
  (cancel_clears_state initState).2.2.2.2.2.2.2.2.2.2 rfl rfl rfl rfl rfl

/-- The payload dispatched by the C9 counterexample scenario. -/
def helloPayload : RequestPayload :=
  { message := "hello", zoneId := "AC-001", acId := "AC-001",
    sessionId := "sess-1", history := [⟨"user", "hello"⟩] }

/-- Witness for claim C9 (amended) at the concrete dispatch of "hello". -/
theorem history_window_bounds_witness :
    ([⟨"user", "hello"⟩] : List ChatMessage)
      = freshSendState.messages
        ++ [⟨"user", jsTrim (rawInput (some "hello") freshSendState)⟩] ∧
    (∃ dropped recent : List ChatMessage,
      ([⟨"user", "hello"⟩] : List ChatMessage) = dropped ++ recent ∧
      recent.length = min 10 ([⟨"user", "hello"⟩] : List ChatMessage).length ∧
      helloPayload.history = (recent.filter (fun m => jsTrim m.text ≠ "")).map
        (fun m => ⟨if m.type = "assistant" then "assistant" else "user",
                   jsTake 500 m.text⟩)) ∧
    helloPayload.history.length ≤ 10 ∧
    ∀ en ∈ helloPayload.history,
      (en.role = "user" ∨ en.role = "assistant") ∧ jsLen en.text ≤ 500 :=
  history_window_bounds freshSendState (some "hello") helloPayload
    [⟨"user", "hello"⟩] (by decide)

/-- A listening session currently displaying "hello". -/
def displayRetained : RecogState :=
  { seenFinalTexts := [], finalTranscript := "", inputValue := "hello",
    shouldSendOnStop := false, isListening := true, speechError := "",
    sent := [] }

/-- Witness for claim C10: an event with no segments leaves the displayed
"hello" in place and non-empty. -/
theorem empty_event_keeps_display_witness :
    (onresult displayRetained []).inputValue = displayRetained.inputValue ∧
    (onresult displayRetained []).inputValue ≠ "" :=
  ⟨(empty_event_keeps_display displayRetained []).1 (by decide),
   (empty_event_keeps_display displayRetained []).2 (by decide)⟩

end FeedbackFrontend
